import Mathlib

/-!
Verification of the cerebra-sensing acquisition pipeline core.

Shallow embedding of the frame-reassembly buffer (`src/buffer.py`), the
per-optode preprocessor (`src/preprocessor.py`), the ICH detector
(`src/ich_detection.py`) and the worker plumbing
(`src/pipeline/workers.py`, `src/pipeline/runtime.py`), together with
proofs and refutations of the spec claims about them.

Conventions:
* Python `bytes` are `List Nat` (byte values).
* Wall-clock reads (`time.time()`) become explicit `current_time_ms`
  parameters threaded through the functions that perform them.
* Python `dict` (insertion ordered) is an association list whose insert
  updates an existing key in place and appends a fresh key at the end.
* Python floats are modelled as `ℚ`; the transcendental / filter-design
  kernels (`math.log`, `scipy.signal.butter` coefficients,
  `lfilter_zi`, the SCI band-pass-and-correlate core) are abstract
  parameters of the model, since their float values are not expressible
  exactly; every claim proved here is independent of those kernels.
-/

namespace Cerebra

/-! ## Association-list helpers (Python `dict` semantics) -/

/-- Python dict write `d[k] = v`: update an existing key in place
(keeping its position), otherwise append the new key at the end. -/
def alistInsert {α : Type} (l : List (Nat × α)) (k : Nat) (v : α) :
    List (Nat × α) :=
  match l with
  | [] => [(k, v)]
  | (k', v') :: rest =>
    if k' = k then (k', v) :: rest else (k', v') :: alistInsert rest k v

/-- Python dict `d.pop(k, None)`: remove the key if present. -/
def alistErase {α : Type} (l : List (Nat × α)) (k : Nat) : List (Nat × α) :=
  match l with
  | [] => []
  | (k', v') :: rest =>
    if k' = k then alistErase rest k else (k', v') :: alistErase rest k

/-- Python dict read `d.get(k)` / `d[k]`. -/
def alistLookup {α : Type} (l : List (Nat × α)) (k : Nat) : Option α :=
  match l with
  | [] => none
  | (k', v') :: rest => if k' = k then some v' else alistLookup rest k

/-! ## `src/buffer.py` -/

/-- `struct.unpack('<I', bytes[0:4])[0]`: little-endian `uint32` from the
first four bytes. -/
def u32le (bytes : List Nat) : Nat :=
  bytes.getD 0 0 + 256 * bytes.getD 1 0 + 65536 * bytes.getD 2 0 +
    16777216 * bytes.getD 3 0

/-- `buffer.decode_metadata`: frame number from the upper 28 bits, optode
id from the lower 4 bits. -/
def decode_metadata (packet : List Nat) : Nat × Nat :=
  let metadata := u32le packet
  (metadata >>> 4, metadata &&& 0xF)

/-- `struct.pack('<I', m)`: four little-endian bytes (callers stay below
`2^32`, where `pack` would raise instead of wrapping). -/
def packU32le (m : Nat) : List Nat :=
  [m % 256, m / 256 % 256, m / 65536 % 256, m / 16777216 % 256]

/-- The metadata word of `Simulator._generate_packet`:
`(frame_number << 4) | optode_id`. -/
def encode_metadata (frame_number optode_id : Nat) : Nat :=
  (frame_number <<< 4) ||| optode_id

/-- `Simulator._generate_packet`, restricted to the header plus the five
packed `float32` payload bytes (payload kept abstract as raw bytes). -/
def generate_packet (frame_number optode_id : Nat) (payload : List Nat) :
    List Nat :=
  packU32le (encode_metadata frame_number optode_id) ++ payload

/-- `buffer.Packet`: packet bytes plus buffer-insertion timestamp. -/
structure TPacket where
  packet : List Nat
  timestamp_ms : Int
  deriving Repr, DecidableEq

/-- `buffer.CompleteFrame`. -/
structure CompleteFrame where
  frame_number : Nat
  timestamp_ms : Int
  packets : List (Nat × List Nat)
  deriving Repr, DecidableEq

/-- `buffer.Buffer` state. -/
structure Buffer where
  num_optodes : Nat
  stale_timeout_ms : Int
  max_pending_frames : Nat
  pending : List (Nat × List (Nat × TPacket))
  start_time_ms : Option Int
  dropped : Nat
  deriving Repr, DecidableEq

/-- `Buffer.__init__`. -/
def Buffer.mk' (num_optodes : Nat) (stale_timeout_ms : Int := 2000)
    (max_pending_frames : Nat := 256) : Buffer :=
  ⟨num_optodes, stale_timeout_ms, max_pending_frames, [], none, 0⟩

/-- `min(tp.timestamp_ms for tp in packets.values())`; the source only
evaluates this on non-empty dicts (Python `min` raises on empty). -/
def oldestTimestamp (packets : List (Nat × TPacket)) : Int :=
  match packets with
  | [] => 0
  | p :: rest => rest.foldl (fun acc q => min acc q.2.timestamp_ms)
      p.2.timestamp_ms

/-- Insert into an ascending list, keeping it ascending. -/
def insertSorted (x : Nat) : List Nat → List Nat
  | [] => [x]
  | y :: ys => if x ≤ y then x :: y :: ys else y :: insertSorted x ys

/-- Python `sorted` on the pending frame numbers (ascending insertion
sort; the keys are distinct, so any correct sort gives this result). -/
def sortAsc (l : List Nat) : List Nat := l.foldr insertSorted []

/-- The staleness test of `Buffer._evict_stale_and_overflow` for one
pending frame. -/
def isStale (b : Buffer) (current_timestamp_ms : Int)
    (packets : List (Nat × TPacket)) : Bool :=
  decide (current_timestamp_ms - oldestTimestamp packets > b.stale_timeout_ms)

/-- `Buffer._evict_stale_and_overflow`. -/
def Buffer.evict_stale_and_overflow (b : Buffer)
    (current_timestamp_ms : Int) : Buffer :=
  let staleCount :=
    (b.pending.filter (fun fp => isStale b current_timestamp_ms fp.2)).length
  let pending1 :=
    b.pending.filter (fun fp => !isStale b current_timestamp_ms fp.2)
  let dropped1 := b.dropped + staleCount
  if pending1.length > b.max_pending_frames then
    let overflow := pending1.length - b.max_pending_frames
    let toDrop := (sortAsc (pending1.map (·.1))).take overflow
    { b with pending := pending1.filter (fun fp => !toDrop.contains fp.1),
             dropped := dropped1 + overflow }
  else
    { b with pending := pending1, dropped := dropped1 }

/-- `Buffer.add_packet`; `current_time_ms` is the wall-clock read
`int(time.time() * 1000)` made explicit. -/
def Buffer.add_packet (b : Buffer) (packet : List Nat)
    (current_time_ms : Int) : Buffer × Option CompleteFrame :=
  let fo := decode_metadata packet
  let frame := fo.1
  let optode := fo.2
  let start := b.start_time_ms.getD current_time_ms
  let timestamp_ms := current_time_ms - start
  let b1 := Buffer.evict_stale_and_overflow
    { b with start_time_ms := some start } timestamp_ms
  let framePackets := alistInsert ((alistLookup b1.pending frame).getD [])
    optode ⟨packet, timestamp_ms⟩
  let b2 := { b1 with pending := alistInsert b1.pending frame framePackets }
  if framePackets.length = b2.num_optodes then
    let first_timestamp := oldestTimestamp framePackets
    ({ b2 with pending := alistErase b2.pending frame },
      some ⟨frame, first_timestamp,
        framePackets.map (fun p => (p.1, p.2.packet))⟩)
  else
    (b2, none)

/-- `Buffer.pending_frames`. -/
def Buffer.pending_frames (b : Buffer) : Nat := b.pending.length

/-- `Buffer.dropped_frames`. -/
def Buffer.dropped_frames (b : Buffer) : Nat := b.dropped

/-- Fold a timed packet stream through `Buffer.add_packet`, collecting the
completed frames in order. -/
def Buffer.run (b : Buffer) (inputs : List (List Nat × Int)) :
    Buffer × List CompleteFrame :=
  inputs.foldl
    (fun acc inp =>
      let r := Buffer.add_packet acc.1 inp.1 inp.2
      (r.1, match r.2 with
            | some cf => acc.2 ++ [cf]
            | none => acc.2))
    (b, [])

/-- Well-formedness mirroring the Python dict representation: frame keys
are distinct, optode keys within a frame are distinct, and pending frame
entries are non-empty. -/
def BufferWF (b : Buffer) : Prop :=
  (b.pending.map Prod.fst).Nodup ∧
    ∀ fp ∈ b.pending, (fp.2.map Prod.fst).Nodup ∧ fp.2 ≠ []

instance (b : Buffer) : Decidable (BufferWF b) := by
  unfold BufferWF; infer_instance

/-- The packets held for the incoming packet's frame immediately after
the insertion step of `Buffer.add_packet` (before the completion check). -/
def framePacketsAfter (b : Buffer) (packet : List Nat)
    (current_time_ms : Int) : List (Nat × TPacket) :=
  let fo := decode_metadata packet
  let start := b.start_time_ms.getD current_time_ms
  let timestamp_ms := current_time_ms - start
  let b1 := Buffer.evict_stale_and_overflow
    { b with start_time_ms := some start } timestamp_ms
  alistInsert ((alistLookup b1.pending fo.1).getD []) fo.2
    ⟨packet, timestamp_ms⟩

/-- A 24-byte simulator packet with an all-zero float payload; only its
metadata header is inspected by the buffer. -/
def examplePacket (frame optode : Nat) : List Nat :=
  generate_packet frame optode
    [0, 0, 0, 0, 0, 0, 0, 0, 0, 0, 0, 0, 0, 0, 0, 0, 0, 0, 0, 0]

/-! ### Association-list lemmas -/

theorem alistInsert_lookup {α : Type} (l : List (Nat × α)) (k : Nat)
    (v : α) : alistLookup (alistInsert l k v) k = some v := by
  induction l with
  | nil => simp [alistInsert, alistLookup]
  | cons hd tl ih =>
    by_cases h : hd.1 = k
    · simp [alistInsert, alistLookup, h]
    · simpa [alistInsert, alistLookup, h] using ih

theorem alistInsert_lookup_ne {α : Type} (l : List (Nat × α)) (k k' : Nat)
    (v : α) (h : k' ≠ k) :
    alistLookup (alistInsert l k v) k' = alistLookup l k' := by
  induction l with
  | nil =>
    simp only [alistInsert, alistLookup]
    rw [if_neg (Ne.symm h)]
  | cons hd tl ih =>
    obtain ⟨k0, v0⟩ := hd
    by_cases hk : k0 = k
    · subst hk
      simp only [alistInsert, if_pos rfl, alistLookup]
      rw [if_neg (Ne.symm h), if_neg (Ne.symm h)]
    · simp only [alistInsert, if_neg hk, alistLookup]
      by_cases hk' : k0 = k'
      · rw [if_pos hk', if_pos hk']
      · rw [if_neg hk', if_neg hk', ih]

theorem alistInsert_length_mem {α : Type} (l : List (Nat × α)) (k : Nat)
    (v : α) (h : ∃ w, alistLookup l k = some w) :
    (alistInsert l k v).length = l.length := by
  induction l with
  | nil => simp [alistLookup] at h
  | cons hd tl ih =>
    by_cases hk : hd.1 = k
    · simp [alistInsert, hk]
    · simp only [alistLookup, hk, if_neg] at h
      simp [alistInsert, hk, ih h]

theorem alistInsert_length_not_mem {α : Type} (l : List (Nat × α)) (k : Nat)
    (v : α) (h : alistLookup l k = none) :
    (alistInsert l k v).length = l.length + 1 := by
  induction l with
  | nil => simp [alistInsert]
  | cons hd tl ih =>
    by_cases hk : hd.1 = k
    · simp [alistLookup, hk] at h
    · simp only [alistLookup, hk, if_neg] at h
      simp [alistInsert, hk, ih h]

theorem alistInsert_keys_mem {α : Type} (l : List (Nat × α)) (k : Nat)
    (v : α) (x : Nat) (hx : x ∈ (alistInsert l k v).map Prod.fst) :
    x = k ∨ x ∈ l.map Prod.fst := by
  induction l with
  | nil => simpa [alistInsert] using hx
  | cons hd tl ih =>
    obtain ⟨k0, v0⟩ := hd
    by_cases hk : k0 = k
    · subst hk
      simpa [alistInsert] using hx
    · simp only [alistInsert, if_neg hk, List.map_cons, List.mem_cons] at hx
      rcases hx with hx1 | hx1
      · right
        simp [hx1]
      · rcases ih hx1 with hx2 | hx2
        · left; exact hx2
        · right
          simp only [List.map_cons, List.mem_cons]
          right; exact hx2

theorem alistInsert_keys_nodup {α : Type} (l : List (Nat × α)) (k : Nat)
    (v : α) (h : (l.map Prod.fst).Nodup) :
    ((alistInsert l k v).map Prod.fst).Nodup := by
  induction l with
  | nil => simp [alistInsert]
  | cons hd tl ih =>
    by_cases hk : hd.1 = k
    · subst hk
      simpa [alistInsert] using h
    · simp only [List.map_cons, List.nodup_cons] at h
      refine ?_
      simp only [alistInsert, hk, if_neg, List.map_cons]
      refine List.nodup_cons.mpr ⟨?_, ih h.2⟩
      intro hmem
      rcases alistInsert_keys_mem tl k v hd.1 hmem with h1 | h1
      · exact hk h1
      · exact h.1 h1

theorem alistErase_lookup {α : Type} (l : List (Nat × α)) (k : Nat) :
    alistLookup (alistErase l k) k = none := by
  induction l with
  | nil => simp [alistErase, alistLookup]
  | cons hd tl ih =>
    obtain ⟨k0, v0⟩ := hd
    by_cases hk : k0 = k
    · simpa [alistErase, hk] using ih
    · simpa [alistErase, alistLookup, hk] using ih

/-! ### Minimum-timestamp lemmas -/

theorem foldl_min_le_init (l : List (Nat × TPacket)) (init : Int) :
    l.foldl (fun acc q => min acc q.2.timestamp_ms) init ≤ init := by
  induction l generalizing init with
  | nil => simp
  | cons hd tl ih =>
    calc tl.foldl (fun acc q => min acc q.2.timestamp_ms)
          (min init hd.2.timestamp_ms) ≤ min init hd.2.timestamp_ms := ih _
      _ ≤ init := min_le_left _ _

theorem foldl_min_le_mem (l : List (Nat × TPacket)) (q : Nat × TPacket)
    (hq : q ∈ l) : ∀ init : Int,
    l.foldl (fun acc p => min acc p.2.timestamp_ms) init ≤
      q.2.timestamp_ms := by
  induction l with
  | nil => simp at hq
  | cons hd tl ih =>
    intro init
    rcases List.mem_cons.mp hq with h | h
    · subst h
      calc tl.foldl (fun acc p => min acc p.2.timestamp_ms)
            (min init q.2.timestamp_ms) ≤ min init q.2.timestamp_ms :=
          foldl_min_le_init _ _
        _ ≤ q.2.timestamp_ms := min_le_right _ _
    · exact ih h _

theorem foldl_min_attained (l : List (Nat × TPacket)) : ∀ init : Int,
    l.foldl (fun acc q => min acc q.2.timestamp_ms) init = init ∨
      ∃ q ∈ l, q.2.timestamp_ms =
        l.foldl (fun acc p => min acc p.2.timestamp_ms) init := by
  induction l with
  | nil => simp
  | cons hd tl ih =>
    intro init
    simp only [List.foldl_cons]
    rcases ih (min init hd.2.timestamp_ms) with h | ⟨q, hq, hqe⟩
    · rcases min_cases init hd.2.timestamp_ms with ⟨he, _⟩ | ⟨he, _⟩
      · left
        rw [h, he]
      · right
        refine ⟨hd, List.mem_cons_self _ _, ?_⟩
        rw [h, he]
    · right
      exact ⟨q, List.mem_cons_of_mem _ hq, hqe⟩

theorem oldestTimestamp_le (l : List (Nat × TPacket)) (q : Nat × TPacket)
    (hq : q ∈ l) : oldestTimestamp l ≤ q.2.timestamp_ms := by
  match l, hq with
  | p :: rest, hq =>
    rcases List.mem_cons.mp hq with h | h
    · subst h
      exact foldl_min_le_init rest _
    · exact foldl_min_le_mem rest q h _

theorem oldestTimestamp_attained (l : List (Nat × TPacket)) (h : l ≠ []) :
    ∃ q ∈ l, q.2.timestamp_ms = oldestTimestamp l := by
  match l with
  | p :: rest =>
    rcases foldl_min_attained rest p.2.timestamp_ms with he | ⟨q, hq, hqe⟩
    · exact ⟨p, List.mem_cons_self _ _, by simpa [oldestTimestamp] using he.symm⟩
    · exact ⟨q, List.mem_cons_of_mem _ hq, by simpa [oldestTimestamp] using hqe⟩

/-! ### More association-list and eviction lemmas -/

theorem alistLookup_mem {α : Type} (l : List (Nat × α)) (k : Nat) (v : α)
    (h : alistLookup l k = some v) : (k, v) ∈ l := by
  induction l with
  | nil => simp [alistLookup] at h
  | cons hd tl ih =>
    obtain ⟨k0, v0⟩ := hd
    by_cases hk : k0 = k
    · subst hk
      have h' : v0 = v := by simpa [alistLookup] using h
      subst h'
      exact List.mem_cons_self _ _
    · simp only [alistLookup, if_neg hk] at h
      exact List.mem_cons_of_mem _ (ih h)

theorem alistLookup_eq_none {α : Type} (l : List (Nat × α)) (k : Nat)
    (h : k ∉ l.map Prod.fst) : alistLookup l k = none := by
  induction l with
  | nil => rfl
  | cons hd tl ih =>
    simp only [List.map_cons, List.mem_cons, not_or] at h
    obtain ⟨k0, v0⟩ := hd
    simp only [alistLookup]
    rw [if_neg (fun he => h.1 (by simpa using he.symm))]
    exact ih h.2

theorem alistLookup_of_mem_nodup {α : Type} (l : List (Nat × α)) (k : Nat)
    (ps : α) (hnd : (l.map Prod.fst).Nodup) (hmem : (k, ps) ∈ l) :
    alistLookup l k = some ps := by
  induction l with
  | nil => simp at hmem
  | cons hd tl ih =>
    obtain ⟨k0, v0⟩ := hd
    simp only [List.map_cons, List.nodup_cons] at hnd
    rcases List.mem_cons.mp hmem with h | h
    · rw [Prod.ext_iff] at h
      obtain ⟨h1, h2⟩ := h
      simp only at h1 h2
      subst h1
      subst h2
      simp [alistLookup]
    · have hk : k0 ≠ k := by
        intro he
        subst he
        exact hnd.1 (List.mem_map.mpr ⟨(k0, ps), h, rfl⟩)
      simp only [alistLookup, if_neg hk]
      exact ih hnd.2 h

theorem alistErase_lookup_ne {α : Type} (l : List (Nat × α)) (k k' : Nat)
    (h : k' ≠ k) : alistLookup (alistErase l k) k' = alistLookup l k' := by
  induction l with
  | nil => rfl
  | cons hd tl ih =>
    obtain ⟨k0, v0⟩ := hd
    by_cases hk : k0 = k
    · subst hk
      rw [show alistErase ((k0, v0) :: tl) k0 = alistErase tl k0 by
            simp [alistErase],
          ih,
          show alistLookup ((k0, v0) :: tl) k' = alistLookup tl k' by
            simp [alistLookup, Ne.symm h]]
    · simp only [alistErase, if_neg hk, alistLookup]
      by_cases hk' : k0 = k'
      · rw [if_pos hk', if_pos hk']
      · rw [if_neg hk', if_neg hk']
        exact ih

theorem alistInsert_ne_nil {α : Type} (l : List (Nat × α)) (k : Nat)
    (v : α) : alistInsert l k v ≠ [] := by
  cases l with
  | nil => simp [alistInsert]
  | cons hd tl =>
    obtain ⟨k0, v0⟩ := hd
    by_cases hk : k0 = k <;> simp [alistInsert, hk]

/-- Entries surviving `Buffer._evict_stale_and_overflow` are entries of
the original pending map, and none of them is stale. -/
theorem evict_pending_mem (b : Buffer) (ts : Int) (fp : Nat × List (Nat × TPacket))
    (h : fp ∈ (Buffer.evict_stale_and_overflow b ts).pending) :
    fp ∈ b.pending ∧ isStale b ts fp.2 = false := by
  unfold Buffer.evict_stale_and_overflow at h
  by_cases hc : (b.pending.filter
      (fun fp => !isStale b ts fp.2)).length > b.max_pending_frames
  · simp only [if_pos hc] at h
    have h1 := List.mem_filter.mp h
    have h2 := List.mem_filter.mp h1.1
    exact ⟨h2.1, by simpa using h2.2⟩
  · simp only [if_neg hc] at h
    have h2 := List.mem_filter.mp h
    exact ⟨h2.1, by simpa using h2.2⟩

/-- The eviction pass increments the dropped-frame counter by at least
the number of stale pending frames. -/
theorem evict_dropped_ge (b : Buffer) (ts : Int) :
    (Buffer.evict_stale_and_overflow b ts).dropped ≥
      b.dropped + (b.pending.filter (fun fp => isStale b ts fp.2)).length := by
  unfold Buffer.evict_stale_and_overflow
  by_cases hc : (b.pending.filter
      (fun fp => !isStale b ts fp.2)).length > b.max_pending_frames
  · simp only [if_pos hc]
    omega
  · simp only [if_neg hc]
    omega

/-! ## Claim C4: metadata round trip -/

theorem encode_metadata_eq (frame optode : Nat) (ho : optode < 16) :
    encode_metadata frame optode = 16 * frame + optode := by
  unfold encode_metadata
  rw [Nat.shiftLeft_eq, Nat.mul_comm frame (2 ^ 4)]
  have h16 : optode < 2 ^ 4 := by norm_num [ho]
  rw [← Nat.mul_add_lt_is_or h16 frame]

/-- C4: for every frame number in `[0, 2^28)` and optode id in `[0, 15]`,
decoding the metadata word produced by encoding
(`metadata = (frame << 4) | optode`, packed little-endian `uint32`)
returns exactly the original `(frame, optode)` pair, for any payload. -/
theorem metadata_roundtrip (frame optode : Nat) (payload : List Nat)
    (hf : frame < 2 ^ 28) (ho : optode < 16) :
    decode_metadata (generate_packet frame optode payload) =
      (frame, optode) := by
  have hm := encode_metadata_eq frame optode ho
  have hb : u32le (generate_packet frame optode payload) =
      encode_metadata frame optode := by
    unfold generate_packet packU32le u32le
    simp only [List.cons_append, List.nil_append, List.getD_cons_zero,
      List.getD_cons_succ]
    omega
  unfold decode_metadata
  rw [hb, hm]
  have hand : (16 * frame + optode) &&& 15 = (16 * frame + optode) % 16 := by
    have h := Nat.and_pow_two_sub_one_eq_mod (16 * frame + optode) 4
    norm_num at h
    exact h
  simp only [Nat.shiftRight_eq_div_pow, hand, Prod.mk.injEq]
  norm_num
  omega

/-- C4 witness: the round trip at `frame = 2^28 - 1`, `optode = 15` with
a 20-byte zero payload. -/
theorem metadata_roundtrip_witness :
    decode_metadata (examplePacket 268435455 15) = (268435455, 15) :=
  metadata_roundtrip 268435455 15 _ (by norm_num) (by norm_num)

/-! ## Claim C3: overflow eviction -/

/-- Buffer with `num_optodes = 2`, `max_pending_frames = 2` after adding
one packet each for the three distinct frames 1, 2, 3 (all at the same
instant, so staleness never triggers). -/
def overflowStep3 : Buffer :=
  ((Buffer.mk' 2 2000 2).run
    [(examplePacket 1 0, 0), (examplePacket 2 0, 0), (examplePacket 3 0, 0)]).1

/-- `overflowStep3` after a fourth `add_packet`, a replacement packet for
the still-pending frame 3 (completing nothing). -/
def overflowStep4 : Buffer :=
  (overflowStep3.add_packet (examplePacket 3 0) 0).1

/-- C3 counterexample: with `max_pending_frames = 2`, after adding one
packet each for three distinct frame numbers, the third `add_packet`
call does NOT leave `dropped_frames() == 1` and `pending_frames() == 2`
as the claim states (eviction runs before, not after, the insertion). -/
theorem overflow_eviction_claim_false :
    ¬ (overflowStep3.dropped_frames = 1 ∧
        overflowStep3.pending_frames = 2) := by
  decide

/-- C3 amended: opening three distinct incomplete frames with
`max_pending_frames = 2` leaves `dropped_frames() == 0` and
`pending_frames() == 3` after the third `add_packet`; the overflow
eviction runs at the start of the NEXT `add_packet`, which evicts the
pending frame with the lowest frame number (frame 1), so that a fourth,
non-completing `add_packet` leaves `dropped_frames() == 1` and
`pending_frames() == 2`, with frames 2 and 3 still pending. -/
theorem overflow_eviction_on_next_insert :
    overflowStep3.dropped_frames = 0 ∧
    overflowStep3.pending_frames = 3 ∧
    overflowStep4.dropped_frames = 1 ∧
    overflowStep4.pending_frames = 2 ∧
    alistLookup overflowStep4.pending 1 = none ∧
    (alistLookup overflowStep4.pending 2).isSome = true ∧
    (alistLookup overflowStep4.pending 3).isSome = true := by
  decide

/-! ## Claim C7: staleness eviction -/

/-- Unfolding equation for `Buffer.add_packet` in terms of
`framePacketsAfter`. -/
theorem add_packet_eq (b : Buffer) (p : List Nat) (t : Int) :
    b.add_packet p t =
      (let b1 := Buffer.evict_stale_and_overflow
          { b with start_time_ms := some (b.start_time_ms.getD t) }
          (t - b.start_time_ms.getD t)
       let fps := framePacketsAfter b p t
       let b2 : Buffer :=
         { b1 with pending := alistInsert b1.pending (decode_metadata p).1 fps }
       let b3 : Buffer :=
         { b2 with pending := alistErase b2.pending (decode_metadata p).1 }
       if fps.length = b1.num_optodes then
         (b3, some ⟨(decode_metadata p).1, oldestTimestamp fps,
             fps.map (fun q => (q.1, q.2.packet))⟩)
       else (b2, none)) := rfl

theorem evict_num_optodes (b : Buffer) (ts : Int) :
    (Buffer.evict_stale_and_overflow b ts).num_optodes = b.num_optodes := by
  simp only [Buffer.evict_stale_and_overflow]
  split <;> rfl

theorem nodup_keys_unique {α : Type} (l : List (Nat × α)) (k : Nat)
    (a c : α) (hnd : (l.map Prod.fst).Nodup) (ha : (k, a) ∈ l)
    (hc : (k, c) ∈ l) : a = c := by
  have h1 := alistLookup_of_mem_nodup l k a hnd ha
  have h2 := alistLookup_of_mem_nodup l k c hnd hc
  rw [h1] at h2
  exact Option.some.injEq .. ▸ h2 ▸ rfl

/-- After eviction, a frame that was pending and stale is gone. -/
theorem evict_stale_lookup_none (b : Buffer) (ts : Int) (k : Nat)
    (ps : List (Nat × TPacket)) (hnd : (b.pending.map Prod.fst).Nodup)
    (hk : (k, ps) ∈ b.pending) (hstale : isStale b ts ps = true) :
    alistLookup (Buffer.evict_stale_and_overflow b ts).pending k = none := by
  apply alistLookup_eq_none
  intro hmem
  rcases List.mem_map.mp hmem with ⟨fp, hfp, hfp1⟩
  obtain ⟨hmem', hfalse⟩ := evict_pending_mem b ts fp hfp
  have : fp = (k, fp.2) := by
    rw [← hfp1]
  rw [this] at hmem'
  have := nodup_keys_unique b.pending k fp.2 ps hnd hmem' hk
  rw [this] at hfalse
  rw [hstale] at hfalse
  cases hfalse

/-- The `staleRun` scenario of the spec: `stale_timeout_ms = 100`,
optode 0 of frame 5 inserted at wall-clock 1000 ms (relative t = 0),
optode 1 of frame 5 inserted at wall-clock 1150 ms (relative t = 150). -/
def staleRun : Buffer × List CompleteFrame :=
  (Buffer.mk' 2 100 256).run
    [(examplePacket 5 0, 1000), (examplePacket 5 1, 1150)]

/-- The buffer state after the first insertion of `staleRun`. -/
def staleStep1 : Buffer :=
  ((Buffer.mk' 2 100 256).add_packet (examplePacket 5 0) 1000).1

/-- C7: before every insertion, any pending frame whose oldest packet is
older than `stale_timeout_ms` relative to the insertion's timestamp is
dropped in full (at most the newly inserted packet can remain under its
frame number) and counted in `dropped_frames`; concretely, with
`stale_timeout_ms = 100` and `num_optodes = 2`, inserting optode 0 of
frame 5 at relative t = 0 and optode 1 at relative t = 150 completes
nothing and leaves `dropped_frames() == 1`. -/
theorem stale_frames_dropped (b : Buffer) (p : List Nat) (t : Int)
    (k : Nat) (ps : List (Nat × TPacket)) (hwf : BufferWF b)
    (hk : (k, ps) ∈ b.pending)
    (hstale : isStale b (t - b.start_time_ms.getD t) ps = true) :
    ((b.add_packet p t).1.dropped_frames ≥
        b.dropped_frames +
          (b.pending.filter
            (fun fp => isStale b (t - b.start_time_ms.getD t) fp.2)).length ∧
      (alistLookup (b.add_packet p t).1.pending k = none ∨
        alistLookup (b.add_packet p t).1.pending k =
          some [((decode_metadata p).2,
                 ⟨p, t - b.start_time_ms.getD t⟩)])) ∧
    (staleRun.2 = [] ∧ staleRun.1.dropped_frames = 1 ∧
      staleRun.1.pending_frames = 1) := by
  have hnone : alistLookup (Buffer.evict_stale_and_overflow
      { b with start_time_ms := some (b.start_time_ms.getD t) }
      (t - b.start_time_ms.getD t)).pending k = none :=
    evict_stale_lookup_none _ _ k ps hwf.1 hk hstale
  refine ⟨⟨?_, ?_⟩, by decide⟩
  · rw [add_packet_eq]
    have hge := evict_dropped_ge
      { b with start_time_ms := some (b.start_time_ms.getD t) }
      (t - b.start_time_ms.getD t)
    simp only [Buffer.dropped_frames]
    split <;> exact hge
  · rw [add_packet_eq]
    by_cases hkf : k = (decode_metadata p).1
    · subst hkf
      have hfps : framePacketsAfter b p t =
          [((decode_metadata p).2,
            ⟨p, t - b.start_time_ms.getD t⟩)] := by
        simp only [framePacketsAfter]
        rw [hnone]
        rfl
      simp only []
      split
      · left
        simp only []
        exact alistErase_lookup _ _
      · right
        simp only []
        rw [alistInsert_lookup, hfps]
    · simp only []
      split
      · left
        rw [alistErase_lookup_ne _ _ _ hkf, alistInsert_lookup_ne _ _ _ _ hkf,
          hnone]
      · left
        rw [alistInsert_lookup_ne _ _ _ _ hkf, hnone]

/-- C7 witness: the theorem applied to the concrete staleness scenario
(`staleStep1`, inserting optode 1 of frame 5 at wall-clock 1150 ms). -/
theorem stale_frames_dropped_witness :
    staleRun.2 = [] ∧ staleRun.1.dropped_frames = 1 ∧
      staleRun.1.pending_frames = 1 :=
  (stale_frames_dropped staleStep1 (examplePacket 5 1) 1150 5
      [(0, ⟨examplePacket 5 0, 0⟩)] (by decide) (by decide) (by decide)).2

end Cerebra

namespace Cerebra

/-! ## Claim C6: frame completion -/

theorem with_start_num_optodes (b : Buffer) (st : Option Int) :
    ({ b with start_time_ms := st } : Buffer).num_optodes = b.num_optodes :=
  rfl

/-- Entries of pending frames survive eviction with their per-frame key
sets intact, so the optode keys of any frame entry reachable after
eviction are distinct. -/
theorem evict_entry_keys_nodup (b : Buffer) (ts : Int) (hwf : BufferWF b)
    (k : Nat) (v : List (Nat × TPacket))
    (h : alistLookup (Buffer.evict_stale_and_overflow b ts).pending k = some v) :
    (v.map Prod.fst).Nodup := by
  have hmem := alistLookup_mem _ _ _ h
  obtain ⟨hm, _⟩ := evict_pending_mem b ts (k, v) hmem
  exact (hwf.2 _ hm).1

/-- The map from stored packets to `CompleteFrame.packets` entries keeps
the optode keys. -/
theorem map_packet_keys (l : List (Nat × TPacket)) :
    ((l.map (fun q => (q.1, q.2.packet))).map Prod.fst) = l.map Prod.fst := by
  rw [List.map_map]
  rfl

/-- C6: `add_packet` returns a `CompleteFrame` exactly when, after the
insertion, the frame holds one packet per configured optode count; the
returned frame is removed from pending; its optode keys are distinct;
and its `timestamp_ms` is the minimum arrival timestamp among its
constituent packets (hence independent of insertion order). -/
theorem add_packet_complete_iff (b : Buffer) (p : List Nat) (t : Int)
    (hwf : BufferWF b) :
    (((b.add_packet p t).2).isSome ↔
        (framePacketsAfter b p t).length = b.num_optodes) ∧
    (∀ cf, (b.add_packet p t).2 = some cf →
      alistLookup (b.add_packet p t).1.pending cf.frame_number = none ∧
      cf.frame_number = (decode_metadata p).1 ∧
      (cf.packets.map Prod.fst).Nodup ∧
      cf.packets.length = b.num_optodes ∧
      (∀ q ∈ framePacketsAfter b p t, cf.timestamp_ms ≤ q.2.timestamp_ms) ∧
      (∃ q ∈ framePacketsAfter b p t, q.2.timestamp_ms = cf.timestamp_ms)) := by
  have hnodup : ((framePacketsAfter b p t).map Prod.fst).Nodup := by
    unfold framePacketsAfter
    apply alistInsert_keys_nodup
    rcases he : alistLookup (Buffer.evict_stale_and_overflow
        { b with start_time_ms := some (b.start_time_ms.getD t) }
        (t - b.start_time_ms.getD t)).pending (decode_metadata p).1 with _ | v
    · simp
    · have hwf' : BufferWF
          { b with start_time_ms := some (b.start_time_ms.getD t) } := hwf
      simpa using evict_entry_keys_nodup _ _ hwf' _ v he
  have hne : framePacketsAfter b p t ≠ [] := by
    unfold framePacketsAfter
    apply alistInsert_ne_nil
  rw [add_packet_eq]
  simp only [evict_num_optodes, with_start_num_optodes]
  split
  · rename_i hlen
    constructor
    · simp [hlen]
    · intro cf hcf
      simp only [] at hcf
      obtain rfl := (Option.some.inj hcf).symm
      refine ⟨alistErase_lookup _ _, rfl, ?_, ?_, ?_, ?_⟩
      · rw [map_packet_keys]
        exact hnodup
      · simp only [List.length_map]
        exact hlen
      · intro q hq
        exact oldestTimestamp_le _ q hq
      · exact oldestTimestamp_attained _ hne
  · rename_i hlen
    constructor
    · simp [hlen]
    · intro cf hcf
      simp only [] at hcf
      cases hcf

/-- Buffer holding optode 0 of frame 9, inserted at wall-clock 500 ms,
with `num_optodes = 2`. -/
def halfFrame9 : Buffer :=
  ((Buffer.mk' 2 2000 256).add_packet (examplePacket 9 0) 500).1

/-- C6 witness: the completion criterion evaluated on `halfFrame9` when
the second optode of frame 9 arrives. -/
theorem add_packet_complete_iff_witness :
    ((halfFrame9.add_packet (examplePacket 9 1) 530).2).isSome ↔
      (framePacketsAfter halfFrame9 (examplePacket 9 1) 530).length =
        halfFrame9.num_optodes :=
  (add_packet_complete_iff halfFrame9 (examplePacket 9 1) 530 (by decide)).1

end Cerebra

namespace Cerebra

/-! ## Claim C10: duplicate (frame, optode) packets -/

theorem with_start_self (b : Buffer) (st : Int)
    (h : b.start_time_ms = some st) :
    ({ b with start_time_ms := some st } : Buffer) = b := by
  cases b
  simp only at h
  simp [h]

/-- When nothing is stale and the pending count is within budget,
eviction is the identity. -/
theorem evict_noop (b : Buffer) (ts : Int)
    (hnostale : ∀ fp ∈ b.pending, isStale b ts fp.2 = false)
    (hlen : b.pending.length ≤ b.max_pending_frames) :
    Buffer.evict_stale_and_overflow b ts = b := by
  unfold Buffer.evict_stale_and_overflow
  have h1 : b.pending.filter (fun fp => isStale b ts fp.2) = [] := by
    rw [List.filter_eq_nil_iff]
    intro a ha
    simp [hnostale a ha]
  have h2 : b.pending.filter (fun fp => !isStale b ts fp.2) = b.pending := by
    rw [List.filter_eq_self]
    intro a ha
    simp [hnostale a ha]
  simp only [h1, h2, List.length_nil]
  rw [if_neg (by omega)]
  cases b
  simp

/-- `add_packet` completes a frame exactly when the post-insertion entry
for the packet's frame has the configured optode count. -/
theorem add_packet_isSome_iff (b : Buffer) (p : List Nat) (t : Int) :
    ((b.add_packet p t).2).isSome ↔
      (framePacketsAfter b p t).length = b.num_optodes := by
  rw [add_packet_eq]
  simp only [evict_num_optodes, with_start_num_optodes]
  split
  · rename_i h
    simp [h]
  · rename_i h
    simp [h]

/-- The duplicate-packet scenario: optode 0 of frame 9 at wall-clock
500 ms, a replacement packet for the same (frame, optode) at 510 ms,
then optode 1 at 520 ms (`num_optodes = 2`). -/
def dupRun : Buffer × List CompleteFrame :=
  (Buffer.mk' 2 2000 256).run
    [(examplePacket 9 0, 500), (examplePacket 9 0, 510),
     (examplePacket 9 1, 520)]

/-- The buffer after the first insertion of `dupRun`. -/
def dupStep1 : Buffer :=
  ((Buffer.mk' 2 2000 256).add_packet (examplePacket 9 0) 500).1

/-- C10: adding a packet whose (frame, optode) key already holds a packet
replaces the stored bytes and arrival timestamp with the new ones, leaves
the frame's distinct-optode count unchanged (so a frame never completes
through duplicates of one optode: completion still requires the
pre-existing distinct count to reach the configured optode count), and
the eventual `CompleteFrame.timestamp_ms` uses the replacement's later
arrival time — concretely, `dupRun` completes frame 9 with relative
timestamp 10 (the replacement's), not 0 (the overwritten packet's). -/
theorem duplicate_packet_replaces (b : Buffer) (p : List Nat) (t st : Int)
    (ps : List (Nat × TPacket)) (qold : TPacket)
    (hst : b.start_time_ms = some st)
    (hk : alistLookup b.pending (decode_metadata p).1 = some ps)
    (ho : alistLookup ps (decode_metadata p).2 = some qold)
    (hnostale : ∀ fp ∈ b.pending, isStale b (t - st) fp.2 = false)
    (hlen : b.pending.length ≤ b.max_pending_frames) :
    ((framePacketsAfter b p t).length = ps.length ∧
      alistLookup (framePacketsAfter b p t) (decode_metadata p).2 =
        some ⟨p, t - st⟩ ∧
      (∀ o, o ≠ (decode_metadata p).2 →
        alistLookup (framePacketsAfter b p t) o = alistLookup ps o) ∧
      (((b.add_packet p t).2).isSome ↔ ps.length = b.num_optodes)) ∧
    (dupRun.2.map (fun cf => cf.timestamp_ms) = [10] ∧
      dupRun.1.pending = []) := by
  have hgd : b.start_time_ms.getD t = st := by
    rw [hst]
    rfl
  have hfpa : framePacketsAfter b p t =
      alistInsert ps (decode_metadata p).2 ⟨p, t - st⟩ := by
    simp only [framePacketsAfter]
    rw [hgd, with_start_self b st hst,
      evict_noop b (t - st) hnostale hlen, hk]
    rfl
  refine ⟨⟨?_, ?_, ?_, ?_⟩, by decide⟩
  · rw [hfpa]
    exact alistInsert_length_mem ps _ _ ⟨qold, ho⟩
  · rw [hfpa]
    exact alistInsert_lookup ps _ _
  · intro o hne
    rw [hfpa]
    exact alistInsert_lookup_ne ps _ o _ hne
  · rw [add_packet_isSome_iff, hfpa,
      alistInsert_length_mem ps _ _ ⟨qold, ho⟩]

/-- C10 witness: the theorem applied to the concrete duplicate scenario
(`dupStep1` receiving a replacement packet for (frame 9, optode 0) at
wall-clock 510 ms). -/
theorem duplicate_packet_replaces_witness :
    dupRun.2.map (fun cf => cf.timestamp_ms) = [10] ∧
      dupRun.1.pending = [] :=
  (duplicate_packet_replaces dupStep1 (examplePacket 9 0) 510 500
      [(0, ⟨examplePacket 9 0, 0⟩)] ⟨examplePacket 9 0, 0⟩
      (by decide) (by decide) (by decide) (by decide) (by decide)).2

end Cerebra

namespace Cerebra

/-! ## `src/ich_detection.py`

Python floats are modelled as `ℚ`; `np.polyfit(x, values, 1)` on
`x = 0, 1, ..., n-1` is the closed-form least-squares slope. The
module-level mutable `state` dict becomes an explicit `Nat → OptodeState`
map threaded through `detect_ich`. -/

/-- `collections.deque(maxlen := m)` append: keep the last `m` elements. -/
def dequeAppend {α : Type} (maxlen : Nat) (xs : List α) (x : α) : List α :=
  let ys := xs ++ [x]
  ys.drop (ys.length - maxlen)

namespace Ich

def ASYMMETRY_THRESHOLD_OD : ℚ := 5 / 100
def ASYMMETRY_THRESHOLD_HBT_PERCENT : ℚ := 1 / 100
def SLOPE_THRESHOLD : ℚ := 1 / 2
/-- `PERSISTENCE_RATIO = 0.6` of the source (renamed for Lean). -/
def PERSISTENCE_CUTOFF : ℚ := 3 / 5
def WINDOW_SECONDS : Nat := 5
def FS : Nat := 10
def WINDOW : Nat := WINDOW_SECONDS * FS
def PERSISTENCE_WINDOW : Nat := 10
def EPS : ℚ := 1 / 1000000

/-- `ich_detection.OptodeState`: the three per-optode rolling windows. -/
structure OptodeState where
  hbt_history : List ℚ
  asymmetry_history : List ℚ
  flag_history : List Bool
  deriving Repr, DecidableEq

/-- A fresh `OptodeState()` (all deques empty). -/
def OptodeState.fresh : OptodeState := ⟨[], [], []⟩

/-- The module-level `state` dict, as a total map defaulting to fresh
state (`get_state` auto-creates missing entries). -/
def freshState : Nat → OptodeState := fun _ => OptodeState.fresh

/-- `compute_slope`: least-squares linear-regression slope of `values`
against index `0..n-1` (`np.polyfit(x, values, 1)[0]`), `0.0` for fewer
than two points. -/
def compute_slope (values : List ℚ) : ℚ :=
  if values.length < 2 then 0
  else
    let n : ℚ := values.length
    let xs : List ℚ := (List.range values.length).map (fun i => (i : ℚ))
    let sx := xs.sum
    let sy := values.sum
    let sxy := ((xs.zip values).map (fun q => q.1 * q.2)).sum
    let sxx := (xs.map (fun x => x * x)).sum
    (n * sxy - sx * sy) / (n * sxx - sx * sx)

/-- `get_paired_optode`: 0–7 pair with 8–15 at offset 8. -/
def get_paired_optode (optode_id : Nat) : Option Nat :=
  if optode_id < 8 then some (optode_id + 8)
  else if optode_id < 16 then some (optode_id - 8)
  else none

def flag_od_asymmetry (od_diff : ℚ) : Bool :=
  decide (|od_diff| > ASYMMETRY_THRESHOLD_OD)

def flag_hbt_percent_asymmetry (percent_diff : ℚ) : Bool :=
  decide (percent_diff > ASYMMETRY_THRESHOLD_HBT_PERCENT)

def flag_dual_wavelength (f_od_860 f_od_740 : Bool) : Bool :=
  f_od_860 && f_od_740

def flag_slope (slope : ℚ) : Bool := decide (slope > SLOPE_THRESHOLD)

def flag_persistence (r : ℚ) : Bool := decide (r > PERSISTENCE_CUTOFF)

/-- One per-optode entry of the `optode_data` dict handed to
`detect_ich`; each key of the Python dict is an optional field here and
`dict.get(key, 0)` is `Option.getD · 0`. -/
structure IchInput where
  hbo : Option ℚ
  hbr : Option ℚ
  od860 : Option ℚ
  od740 : Option ℚ
  deriving Repr, DecidableEq

/-- `detect_ich`: per-optode ensemble classification. Returns the
`final_flags` and `flag_counts` dicts (in iteration order) and the
updated per-optode state map. The `print` call of the source is pure
output and has no modelled effect. -/
def detect_ich (optode_data : List (Nat × IchInput))
    (active_optodes : List Nat) (state : Nat → OptodeState) :
    List (Nat × String) × List (Nat × Nat) × (Nat → OptodeState) :=
  active_optodes.foldl
    (fun acc optode_id =>
      match alistLookup optode_data optode_id with
      | none => acc
      | some dat =>
        let os := acc.2.2 optode_id
        let pair_id := get_paired_optode optode_id
        let hboV := dat.hbo.getD 0
        let hbrV := dat.hbr.getD 0
        let hbtV := hboV + hbrV
        let hbt_history := dequeAppend WINDOW os.hbt_history hbtV
        let od860V := dat.od860.getD 0
        let od740V := dat.od740.getD 0
        let pairDat := match pair_id with
          | some pid => alistLookup optode_data pid
          | none => none
        let step := match pairDat with
          | none => ((0 : ℚ), (0 : ℚ), (0 : ℚ), os.asymmetry_history)
          | some pd =>
            let hbtPair := pd.hbo.getD 0 + pd.hbr.getD 0
            let od860_diff := od860V - pd.od860.getD 0
            let od740_diff := od740V - pd.od740.getD 0
            let mean_val := (hbtV + hbtPair) / 2
            let percent_diff :=
              if mean_val > EPS then |hbtV - hbtPair| / mean_val else 0
            (od860_diff, od740_diff, percent_diff,
              dequeAppend WINDOW os.asymmetry_history (hbtV - hbtPair))
        let od860_diff := step.1
        let od740_diff := step.2.1
        let percent_diff := step.2.2.1
        let asymmetry_history := step.2.2.2
        let slope_val := compute_slope asymmetry_history
        let f_od_860 := flag_od_asymmetry od860_diff
        let f_od_740 := flag_od_asymmetry od740_diff
        let f_hbt := flag_hbt_percent_asymmetry percent_diff
        let f_dual := flag_dual_wavelength f_od_860 f_od_740
        let f_slope := flag_slope slope_val
        let any_flag_now := f_od_860 || f_od_740 || f_hbt || f_dual || f_slope
        let flag_history := dequeAppend PERSISTENCE_WINDOW os.flag_history
          any_flag_now
        let persistRatioV : ℚ :=
          if flag_history.length > 0 then
            ((flag_history.filter id).length : ℚ) / (flag_history.length : ℚ)
          else 0
        let f_persist := flag_persistence persistRatioV
        let flag_count := f_od_860.toNat + f_od_740.toNat + f_hbt.toNat +
          f_dual.toNat + f_slope.toNat + f_persist.toNat
        let label :=
          if flag_count ≥ 4 then "POTENTIAL_ICH"
          else if flag_count ≥ 2 then "ABNORMALITY"
          else "NORMAL"
        (acc.1 ++ [(optode_id, label)],
         acc.2.1 ++ [(optode_id, flag_count)],
         fun i => if i = optode_id then
             ⟨hbt_history, asymmetry_history, flag_history⟩
           else acc.2.2 i))
    ([], [], state)

end Ich

end Cerebra

namespace Cerebra

/-! ## `src/preprocessor.py`

Python floats are `ℚ`. The transcendental kernels — `math.log`, the
`scipy.signal.butter(2, ·)` low-pass coefficients, the `lfilter_zi`
steady state and the band-pass-and-correlate core of `_compute_sci` —
have no exact rational values, so they are abstract parameters
(`DspKernels`); every claim proved below holds for every choice of
kernels. `np.linalg.pinv` of the invertible 2×2 extinction matrix is its
exact inverse. -/

namespace Prep

def REGRESSION_WINDOW : Nat := 5
def SCI_WINDOW : Nat := 10
def BASELINE_SECONDS : ℚ := 3
def ALPHA_860 : ℚ := 5 / 100
def ALPHA_740 : ℚ := 1 / 10
def BETA_INIT : ℚ := 1 / 10
def EPS : ℚ := 1 / 1000000

def DPF_SHORT : ℚ := 6
def DPF_LONG : ℚ := 6
def DISTANCE_SHORT : ℚ := 3 / 2
def DISTANCE_LONG : ℚ := 3

/-- Abstract numeric kernels of the preprocessor (see section comment). -/
structure DspKernels where
  qlog : ℚ → ℚ
  low_b0 : ℚ
  low_b1 : ℚ
  low_b2 : ℚ
  low_a1 : ℚ
  low_a2 : ℚ
  zi0 : ℚ
  zi1 : ℚ
  sciCore : List ℚ → List ℚ → ℚ

/-- `preprocessor._OptodeState`. -/
structure OptodeState where
  baseline_count : Nat := 0
  baseline_sum_long_740 : ℚ := 0
  baseline_sum_long_860 : ℚ := 0
  baseline_sum_short_740 : ℚ := 0
  baseline_sum_short_860 : ℚ := 0
  baseline_ready : Bool := false
  i0_long_740 : ℚ := 1
  i0_long_860 : ℚ := 1
  i0_short_740 : ℚ := 1
  i0_short_860 : ℚ := 1
  beta_860 : ℚ := BETA_INIT
  beta_740 : ℚ := BETA_INIT
  short_od_860 : List ℚ := []
  short_od_740 : List ℚ := []
  long_raw_od_860 : List ℚ := []
  long_raw_od_740 : List ℚ := []
  zi_860 : Option (ℚ × ℚ) := none
  zi_740 : Option (ℚ × ℚ) := none
  deriving Repr, DecidableEq

/-- `preprocessor.PreprocessedResult`. -/
structure PreprocessedResult where
  sample_id : Nat
  optode_id : Nat
  frame_number : Nat
  timestamp_ms : Int
  od_nm740_short : ℚ
  od_nm740_long : ℚ
  od_nm860_short : ℚ
  od_nm860_long : ℚ
  hbo_short : ℚ
  hbr_short : ℚ
  hbo_long : ℚ
  hbr_long : ℚ
  deriving Repr, DecidableEq

/-- The dict returned by `Preprocessor._process_values` once READY. -/
structure ProcessedValues where
  od_short_740 : ℚ
  od_short_860 : ℚ
  od_long_740_raw : ℚ
  od_long_860_raw : ℚ
  od_long_740_clean : ℚ
  od_long_860_clean : ℚ
  od_long_740_filtered : ℚ
  od_long_860_filtered : ℚ
  hbo_short : ℚ
  hbr_short : ℚ
  hbo_long : ℚ
  hbr_long : ℚ
  sci : Option ℚ
  deriving Repr, DecidableEq

/-- `preprocessor.Preprocessor` configuration (per-optode states are
threaded explicitly). -/
structure Preprocessor where
  sample_rate_hz : ℚ
  baseline_samples : Nat
  kernels : DspKernels

/-- `Preprocessor.__init__`:
`baseline_samples = max(1, int(round(sample_rate_hz * BASELINE_SECONDS)))`. -/
def Preprocessor.mk' (sample_rate_hz : ℚ) (kernels : DspKernels) :
    Preprocessor :=
  ⟨sample_rate_hz,
    max 1 (round (sample_rate_hz * BASELINE_SECONDS)).toNat, kernels⟩

/-- `np.var` (population variance, ddof = 0). -/
def npVar (l : List ℚ) : ℚ :=
  let n : ℚ := l.length
  (l.map (fun x => x * x)).sum / n - (l.sum / n) * (l.sum / n)

/-- `np.cov(s, l)[0, 1]` (sample covariance, ddof = 1). -/
def npCov01 (s l : List ℚ) : ℚ :=
  let n : ℚ := s.length
  let ms := s.sum / n
  let ml := l.sum / n
  ((s.zip l).map (fun q => (q.1 - ms) * (q.2 - ml))).sum / (n - 1)

/-- `Preprocessor._update_beta`. -/
def update_beta (short_samples long_raw_samples : List ℚ) (beta alpha : ℚ) :
    ℚ :=
  if short_samples.length < REGRESSION_WINDOW ∨
      long_raw_samples.length < REGRESSION_WINDOW then beta
  else
    let s := short_samples
    let l := long_raw_samples.drop (long_raw_samples.length - REGRESSION_WINDOW)
    let var_s := npVar s
    if var_s ≤ EPS then beta
    else
      let beta_new := npCov01 s l / var_s
      (1 - alpha) * beta + alpha * beta_new

/-- `Preprocessor._apply_lowpass`: one `scipy.signal.lfilter` step in
transposed direct form II (the coefficients are `butter`-normalized with
`a0 = 1`), with the `lfilter_zi(b, a) * value` cold-start seed. -/
def apply_lowpass (k : DspKernels) (value : ℚ) (zi : Option (ℚ × ℚ)) :
    ℚ × (ℚ × ℚ) :=
  let z := match zi with
    | none => (k.zi0 * value, k.zi1 * value)
    | some z => z
  let out := k.low_b0 * value + z.1
  (out, (k.low_b1 * value + z.2 - k.low_a1 * out,
         k.low_b2 * value - k.low_a2 * out))

/-- `Preprocessor._compute_sci`: `None` until the 10-sample window
fills, then the (abstracted) band-pass-and-correlate core. -/
def compute_sci (k : DspKernels) (state : OptodeState) : Option ℚ :=
  if state.long_raw_od_740.length < SCI_WINDOW then none
  else some (k.sciCore state.long_raw_od_740 state.long_raw_od_860)

/-- `Preprocessor._mbll`: solve the 2×2 extinction system (the
pseudo-inverse of the invertible matrix is its inverse) and divide by
the effective pathlength. -/
def mbll (od_740 od_860 dpf distance : ℚ) : ℚ × ℚ :=
  let det : ℚ := 1486 * 1798 - 3843 * 2526
  let chromo0 := (1798 * od_740 - 3843 * od_860) / det
  let chromo1 := (-2526 * od_740 + 1486 * od_860) / det
  let pathlength := max (distance * dpf) EPS
  (chromo0 / pathlength, chromo1 / pathlength)

/-- The five channel values of one unpacked packet
(`struct.unpack('<I5f', packet)[1:]`, exact for finite `float32`s). -/
structure PacketValues where
  long_740 : ℚ
  long_860 : ℚ
  short_740 : ℚ
  short_860 : ℚ
  dark : ℚ
  deriving Repr, DecidableEq

/-- Dark subtraction with the `EPS` floor clamp. -/
def clampf (v dark : ℚ) : ℚ := max (v - dark) EPS

/-- `Preprocessor._process_values` for one optode sample: returns the
updated optode state and `None` during warmup or the processed values
once READY. -/
def process_values (pp : Preprocessor) (state : OptodeState)
    (pv : PacketValues) : OptodeState × Option ProcessedValues :=
  let long_740 := clampf pv.long_740 pv.dark
  let long_860 := clampf pv.long_860 pv.dark
  let short_740 := clampf pv.short_740 pv.dark
  let short_860 := clampf pv.short_860 pv.dark
  if state.baseline_ready = false then
    let st :=
      { state with
        baseline_sum_long_740 := state.baseline_sum_long_740 + long_740
        baseline_sum_long_860 := state.baseline_sum_long_860 + long_860
        baseline_sum_short_740 := state.baseline_sum_short_740 + short_740
        baseline_sum_short_860 := state.baseline_sum_short_860 + short_860
        baseline_count := state.baseline_count + 1 }
    let st :=
      if pp.baseline_samples ≤ st.baseline_count then
        let inv_n : ℚ := 1 / (st.baseline_count : ℚ)
        { st with
          i0_long_740 := max (st.baseline_sum_long_740 * inv_n) EPS
          i0_long_860 := max (st.baseline_sum_long_860 * inv_n) EPS
          i0_short_740 := max (st.baseline_sum_short_740 * inv_n) EPS
          i0_short_860 := max (st.baseline_sum_short_860 * inv_n) EPS
          baseline_ready := true
          baseline_sum_long_740 := 0
          baseline_sum_long_860 := 0
          baseline_sum_short_740 := 0
          baseline_sum_short_860 := 0 }
      else st
    (st, none)
  else
    let od_long_740 := -pp.kernels.qlog (long_740 / state.i0_long_740)
    let od_long_860 := -pp.kernels.qlog (long_860 / state.i0_long_860)
    let od_short_740 := -pp.kernels.qlog (short_740 / state.i0_short_740)
    let od_short_860 := -pp.kernels.qlog (short_860 / state.i0_short_860)
    let st :=
      { state with
        short_od_740 := dequeAppend REGRESSION_WINDOW state.short_od_740
          od_short_740
        short_od_860 := dequeAppend REGRESSION_WINDOW state.short_od_860
          od_short_860
        long_raw_od_740 := dequeAppend SCI_WINDOW state.long_raw_od_740
          od_long_740
        long_raw_od_860 := dequeAppend SCI_WINDOW state.long_raw_od_860
          od_long_860 }
    let sci := compute_sci pp.kernels st
    let st :=
      { st with
        beta_740 := update_beta st.short_od_740 st.long_raw_od_740
          st.beta_740 ALPHA_740
        beta_860 := update_beta st.short_od_860 st.long_raw_od_860
          st.beta_860 ALPHA_860 }
    let clean_od_740 := od_long_740 - st.beta_740 * od_short_740
    let clean_od_860 := od_long_860 - st.beta_860 * od_short_860
    let f740 := apply_lowpass pp.kernels clean_od_740 st.zi_740
    let f860 := apply_lowpass pp.kernels clean_od_860 st.zi_860
    let st := { st with zi_740 := some f740.2, zi_860 := some f860.2 }
    let hbShort := mbll od_short_740 od_short_860 DPF_SHORT DISTANCE_SHORT
    let hbLong := mbll f740.1 f860.1 DPF_LONG DISTANCE_LONG
    (st, some
      { od_short_740 := od_short_740
        od_short_860 := od_short_860
        od_long_740_raw := od_long_740
        od_long_860_raw := od_long_860
        od_long_740_clean := clean_od_740
        od_long_860_clean := clean_od_860
        od_long_740_filtered := f740.1
        od_long_860_filtered := f860.1
        hbo_short := hbShort.1
        hbr_short := hbShort.2
        hbo_long := hbLong.1
        hbr_long := hbLong.2
        sci := sci })

/-- A `CompleteFrame` at the preprocessor boundary, with each packet
already unpacked to its five channel values. -/
structure ValueFrame where
  frame_number : Nat
  timestamp_ms : Int
  packets : List (Nat × PacketValues)
  deriving Repr, DecidableEq

/-- One iteration of the `Preprocessor.process_frame` loop, for the
packet `op` of one optode. -/
def process_frame_step (pp : Preprocessor) (frame : ValueFrame)
    (sample_ids : Nat → Option Nat)
    (acc : (Nat → OptodeState) × List (Nat × PreprocessedResult))
    (op : Nat × PacketValues) :
    (Nat → OptodeState) × List (Nat × PreprocessedResult) :=
  match sample_ids op.1 with
  | none => acc
  | some sample_id =>
    let r := process_values pp (acc.1 op.1) op.2
    let states' := fun i => if i = op.1 then r.1 else acc.1 i
    match r.2 with
    | none => (states', acc.2)
    | some d =>
      (states', acc.2 ++ [(op.1,
        { sample_id := sample_id
          optode_id := op.1
          frame_number := frame.frame_number
          timestamp_ms := frame.timestamp_ms
          od_nm740_short := d.od_short_740
          od_nm740_long := d.od_long_740_filtered
          od_nm860_short := d.od_short_860
          od_nm860_long := d.od_long_860_filtered
          hbo_short := d.hbo_short
          hbr_short := d.hbr_short
          hbo_long := d.hbo_long
          hbr_long := d.hbr_long })])

/-- `Preprocessor.process_frame`: process each optode of a complete
frame, skipping optodes whose `sample_ids.get(optode_id)` is `None`,
and collect a `PreprocessedResult` for each optode past warmup. -/
def process_frame (pp : Preprocessor) (states : Nat → OptodeState)
    (frame : ValueFrame) (sample_ids : Nat → Option Nat) :
    (Nat → OptodeState) × List (Nat × PreprocessedResult) :=
  frame.packets.foldl (process_frame_step pp frame sample_ids) (states, [])

/-- Streaming helper: fold one optode's sample stream through
`_process_values`, collecting each sample's output. -/
def runSamples (pp : Preprocessor) (st : OptodeState)
    (samples : List PacketValues) :
    OptodeState × List (Option ProcessedValues) :=
  samples.foldl
    (fun acc pv =>
      let r := process_values pp acc.1 pv
      (r.1, acc.2 ++ [r.2]))
    (st, [])

end Prep

end Cerebra

namespace Cerebra

/-! ## `src/pipeline/workers.py` and `src/pipeline/runtime.py`:
preprocess-side plumbing -/

/-- `PreprocessWorker._prepare_ich_data`: the per-optode dict handed to
`detect_ich` carries only the `"HbR"` and `"OD_860"` keys. -/
def prepare_ich_data (preprocessed : List (Nat × Prep.PreprocessedResult)) :
    List (Nat × Ich.IchInput) :=
  preprocessed.map (fun pr =>
    (pr.1,
      { hbo := none
        hbr := some pr.2.hbr_long
        od860 := some pr.2.od_nm860_long
        od740 := none }))

/-- Python truthiness of a classification-label string: non-empty. -/
def pyTruthy (s : String) : Bool := decide (s ≠ "")

/-- `any(flags.values()) if flags else False` from
`PreprocessWorker.run` — `flags` maps optode ids to label STRINGS. -/
def anyFlagsTruthy (flags : List (Nat × String)) : Bool :=
  if flags.isEmpty then false
  else (flags.map (fun q => pyTruthy q.2)).any id

/-- `pipeline.types.PipelineSummary`. -/
structure PipelineSummary where
  captured_frames : Nat
  processed_frames : Nat
  dropped_incomplete_frames : Nat
  last_frame_hemorrhage_detected : Bool
  deriving Repr, DecidableEq

/-- The runtime's zeroed counters at `start()`. -/
def initSummary : PipelineSummary := ⟨0, 0, 0, false⟩

/-- `PipelineRuntime._on_last_frame_hemorrhage`. -/
def on_last_frame_hemorrhage (s : PipelineSummary) (detected : Bool) :
    PipelineSummary :=
  { s with last_frame_hemorrhage_detected := detected }

/-! ## Claim C1: data handed to the ICH detector -/

/-- A preprocessed result with `hbo_long = 1`, `hbr_long = 2`,
`od_nm740_long = 4`, `od_nm860_long = 5`. -/
def c1Result : Prep.PreprocessedResult :=
  { sample_id := 1
    optode_id := 0
    frame_number := 0
    timestamp_ms := 0
    od_nm740_short := 0
    od_nm740_long := 4
    od_nm860_short := 0
    od_nm860_long := 5
    hbo_short := 0
    hbr_short := 0
    hbo_long := 1
    hbr_long := 2 }

/-- C1 (code bug): `_prepare_ich_data` hands the detector only
`{HbR, OD_860}`; `HbO` and `OD_740` are absent, so `detect_ich`'s
defaults make the appended HbT equal `hbr_long` alone — on `c1Result`
(where `hbo_long + hbr_long = 3`) the rolling HbT window receives `2`,
not `3`, and the 740 nm value seen by the detector is `0`, not
`od_nm740_long = 4`. -/
theorem prepare_ich_data_omits_hbo_od740 :
    (∀ (i : Nat) (r : Prep.PreprocessedResult),
      prepare_ich_data [(i, r)] =
        [(i, ⟨none, some r.hbr_long, some r.od_nm860_long, none⟩)]) ∧
    ((Ich.detect_ich (prepare_ich_data [(0, c1Result)]) [0]
        Ich.freshState).2.2 0).hbt_history = [2] ∧
    c1Result.hbo_long + c1Result.hbr_long = 3 := by
  refine ⟨fun i r => rfl, ?_, by norm_num [c1Result]⟩
  norm_num [Ich.detect_ich, prepare_ich_data, Ich.freshState,
    Ich.OptodeState.fresh, alistLookup, Ich.get_paired_optode, dequeAppend,
    Ich.compute_slope, Ich.flag_od_asymmetry, Ich.flag_hbt_percent_asymmetry,
    Ich.flag_dual_wavelength, Ich.flag_slope, Ich.flag_persistence,
    Ich.WINDOW, Ich.PERSISTENCE_WINDOW, Ich.WINDOW_SECONDS, Ich.FS,
    Ich.EPS, Ich.ASYMMETRY_THRESHOLD_OD, Ich.ASYMMETRY_THRESHOLD_HBT_PERCENT,
    Ich.SLOPE_THRESHOLD, Ich.PERSISTENCE_CUTOFF, c1Result]

/-! ## Claim C2: the last-frame hemorrhage summary flag -/

/-- An all-zero preprocessed result (a quiet optode). -/
def quietResult : Prep.PreprocessedResult :=
  { sample_id := 1
    optode_id := 0
    frame_number := 0
    timestamp_ms := 0
    od_nm740_short := 0
    od_nm740_long := 0
    od_nm860_short := 0
    od_nm860_long := 0
    hbo_short := 0
    hbr_short := 0
    hbo_long := 0
    hbr_long := 0 }

/-- C2 (code bug): `detect_ich` classifies both quiet optodes `NORMAL`,
yet `any(flags.values())` is evaluated over the label STRINGS, every
non-empty string is truthy, and so the runtime summary's
`last_frame_hemorrhage_detected` is set to `true` — not the
classification OR, which would be `false`. -/
theorem hemorrhage_flag_true_on_all_normal :
    (Ich.detect_ich (prepare_ich_data [(0, quietResult), (1, quietResult)])
        [0, 1] Ich.freshState).1 = [(0, "NORMAL"), (1, "NORMAL")] ∧
    anyFlagsTruthy
      (Ich.detect_ich (prepare_ich_data [(0, quietResult), (1, quietResult)])
        [0, 1] Ich.freshState).1 = true ∧
    (on_last_frame_hemorrhage initSummary
        (anyFlagsTruthy
          (Ich.detect_ich
            (prepare_ich_data [(0, quietResult), (1, quietResult)])
            [0, 1] Ich.freshState).1)).last_frame_hemorrhage_detected =
      true := by
  refine ⟨?_, ?_, ?_⟩ <;>
  norm_num [Ich.detect_ich, prepare_ich_data, Ich.freshState,
    Ich.OptodeState.fresh, alistLookup, Ich.get_paired_optode, dequeAppend,
    Ich.compute_slope, Ich.flag_od_asymmetry, Ich.flag_hbt_percent_asymmetry,
    Ich.flag_dual_wavelength, Ich.flag_slope, Ich.flag_persistence,
    Ich.WINDOW, Ich.PERSISTENCE_WINDOW, Ich.WINDOW_SECONDS, Ich.FS,
    Ich.EPS, Ich.ASYMMETRY_THRESHOLD_OD, Ich.ASYMMETRY_THRESHOLD_HBT_PERCENT,
    Ich.SLOPE_THRESHOLD, Ich.PERSISTENCE_CUTOFF, quietResult,
    anyFlagsTruthy, pyTruthy, initSummary, on_last_frame_hemorrhage] <;>
  decide

end Cerebra

namespace Cerebra

/-! ## Claim C9: optodes without a sample id are skipped untouched -/

theorem process_frame_step_skip (pp : Prep.Preprocessor)
    (frame : Prep.ValueFrame) (sample_ids : Nat → Option Nat)
    (acc : (Nat → Prep.OptodeState) × List (Nat × Prep.PreprocessedResult))
    (op : Nat × Prep.PacketValues) (h : sample_ids op.1 = none) :
    Prep.process_frame_step pp frame sample_ids acc op = acc := by
  simp [Prep.process_frame_step, h]

theorem process_frame_step_other (pp : Prep.Preprocessor)
    (frame : Prep.ValueFrame) (sample_ids : Nat → Option Nat)
    (acc : (Nat → Prep.OptodeState) × List (Nat × Prep.PreprocessedResult))
    (op : Nat × Prep.PacketValues) (optode : Nat) (hne : op.1 ≠ optode) :
    (Prep.process_frame_step pp frame sample_ids acc op).1 optode =
      acc.1 optode ∧
    ∀ e ∈ (Prep.process_frame_step pp frame sample_ids acc op).2,
      e ∈ acc.2 ∨ e.1 = op.1 := by
  unfold Prep.process_frame_step
  cases hs : sample_ids op.1 with
  | none => exact ⟨rfl, fun e he => Or.inl he⟩
  | some sid =>
    cases hr : (Prep.process_values pp (acc.1 op.1) op.2).2 with
    | none =>
      refine ⟨?_, ?_⟩
      · simp [hr, Ne.symm hne]
      · intro e he
        simp only [hr] at he
        exact Or.inl he
    | some d =>
      refine ⟨?_, ?_⟩
      · simp [hr, Ne.symm hne]
      · intro e he
        simp only [hr] at he
        rcases List.mem_append.mp he with h3 | h3
        · exact Or.inl h3
        · right
          rw [List.mem_singleton.mp h3]

theorem process_frame_aux (pp : Prep.Preprocessor) (frame : Prep.ValueFrame)
    (sample_ids : Nat → Option Nat) (optode : Nat)
    (hs : sample_ids optode = none) (l : List (Nat × Prep.PacketValues)) :
    ∀ acc : (Nat → Prep.OptodeState) × List (Nat × Prep.PreprocessedResult),
    (l.foldl (Prep.process_frame_step pp frame sample_ids) acc).1 optode =
      acc.1 optode ∧
    ∀ e ∈ (l.foldl (Prep.process_frame_step pp frame sample_ids) acc).2,
      e ∈ acc.2 ∨ e.1 ≠ optode := by
  induction l with
  | nil => exact fun acc => ⟨rfl, fun e he => Or.inl he⟩
  | cons hd tl ih =>
    intro acc
    simp only [List.foldl_cons]
    by_cases hh : hd.1 = optode
    · have hskip : Prep.process_frame_step pp frame sample_ids acc hd = acc :=
        process_frame_step_skip _ _ _ _ _ (by rw [hh]; exact hs)
      rw [hskip]
      exact ih acc
    · obtain ⟨h1, h2⟩ :=
        process_frame_step_other pp frame sample_ids acc hd optode hh
      obtain ⟨ih1, ih2⟩ := ih (Prep.process_frame_step pp frame sample_ids acc hd)
      refine ⟨ih1.trans h1, fun e he => ?_⟩
      rcases ih2 e he with h3 | h3
      · rcases h2 e h3 with h4 | h4
        · exact Or.inl h4
        · exact Or.inr (h4 ▸ hh)
      · exact Or.inr h3

/-- C9: for every optode present in a frame but mapped to no sample id
(`sample_ids.get(optode_id) is None`), `process_frame` yields no result
for that optode and leaves its entire DSP state untouched. -/
theorem process_frame_skips_unmapped (pp : Prep.Preprocessor)
    (states : Nat → Prep.OptodeState) (frame : Prep.ValueFrame)
    (sample_ids : Nat → Option Nat) (optode : Nat)
    (_hp : ∃ pv, (optode, pv) ∈ frame.packets)
    (hs : sample_ids optode = none) :
    (Prep.process_frame pp states frame sample_ids).1 optode =
      states optode ∧
    ∀ e ∈ (Prep.process_frame pp states frame sample_ids).2,
      e.1 ≠ optode := by
  obtain ⟨h1, h2⟩ :=
    process_frame_aux pp frame sample_ids optode hs frame.packets (states, [])
  exact ⟨h1, fun e he => (h2 e he).resolve_left (by simp)⟩

/-- All-zero DSP kernels, for concrete instantiations (the claims hold
for every kernel choice). -/
def zeroKernels : Prep.DspKernels :=
  ⟨fun _ => 0, 0, 0, 0, 0, 0, 0, 0, fun _ _ => 0⟩

/-- A 5 Hz preprocessor (15 baseline samples). -/
def pp5 : Prep.Preprocessor := Prep.Preprocessor.mk' 5 zeroKernels

/-- A constant intensity sample. -/
def onePacketValues : Prep.PacketValues := ⟨2, 2, 2, 2, 0⟩

/-- A single-optode frame for optode 0. -/
def c9Frame : Prep.ValueFrame := ⟨0, 0, [(0, onePacketValues)]⟩

/-- C9 witness: a frame containing optode 0 processed with a sample-id
map that returns none for it. -/
theorem process_frame_skips_unmapped_witness :
    (Prep.process_frame pp5 (fun _ => {}) c9Frame (fun _ => none)).1 0 =
      ({} : Prep.OptodeState) ∧
    ∀ e ∈ (Prep.process_frame pp5 (fun _ => {}) c9Frame (fun _ => none)).2,
      e.1 ≠ 0 :=
  process_frame_skips_unmapped pp5 _ c9Frame _ 0
    ⟨onePacketValues, by simp [c9Frame]⟩ rfl

end Cerebra

namespace Cerebra

/-! ## Claim C5: baseline warmup boundary -/

/-- The optode state during warmup after `samples` have been absorbed:
counts and dark-corrected channel sums accumulated, all else fresh. -/
def warmAfter (samples : List Prep.PacketValues) : Prep.OptodeState :=
  { baseline_count := samples.length
    baseline_sum_long_740 :=
      (samples.map (fun q => Prep.clampf q.long_740 q.dark)).sum
    baseline_sum_long_860 :=
      (samples.map (fun q => Prep.clampf q.long_860 q.dark)).sum
    baseline_sum_short_740 :=
      (samples.map (fun q => Prep.clampf q.short_740 q.dark)).sum
    baseline_sum_short_860 :=
      (samples.map (fun q => Prep.clampf q.short_860 q.dark)).sum }

theorem process_values_warm_step (pp : Prep.Preprocessor)
    (pre : List Prep.PacketValues) (pv : Prep.PacketValues)
    (h : pre.length + 1 < pp.baseline_samples) :
    Prep.process_values pp (warmAfter pre) pv =
      (warmAfter (pre ++ [pv]), none) := by
  have hready : (warmAfter pre).baseline_ready = false := rfl
  unfold Prep.process_values
  rw [if_pos hready]
  simp only []
  rw [if_neg (by simp only [warmAfter]; omega)]
  simp [warmAfter, List.sum_append]

theorem process_values_flip_step (pp : Prep.Preprocessor)
    (pre : List Prep.PacketValues) (pv : Prep.PacketValues)
    (h : pp.baseline_samples ≤ pre.length + 1) :
    Prep.process_values pp (warmAfter pre) pv =
      ({ baseline_count := pre.length + 1
         baseline_ready := true
         i0_long_740 := max
           (((pre ++ [pv]).map (fun q => Prep.clampf q.long_740 q.dark)).sum *
             (1 / ((pre.length : ℚ) + 1))) Prep.EPS
         i0_long_860 := max
           (((pre ++ [pv]).map (fun q => Prep.clampf q.long_860 q.dark)).sum *
             (1 / ((pre.length : ℚ) + 1))) Prep.EPS
         i0_short_740 := max
           (((pre ++ [pv]).map (fun q => Prep.clampf q.short_740 q.dark)).sum *
             (1 / ((pre.length : ℚ) + 1))) Prep.EPS
         i0_short_860 := max
           (((pre ++ [pv]).map (fun q => Prep.clampf q.short_860 q.dark)).sum *
             (1 / ((pre.length : ℚ) + 1))) Prep.EPS }, none) := by
  have hready : (warmAfter pre).baseline_ready = false := rfl
  unfold Prep.process_values
  rw [if_pos hready]
  simp only []
  rw [if_pos (by simp only [warmAfter]; omega)]
  simp [warmAfter, List.sum_append]

end Cerebra

namespace Cerebra

theorem runSamples_warm_aux (pp : Prep.Preprocessor)
    (samples : List Prep.PacketValues) :
    ∀ (pre : List Prep.PacketValues)
      (outs : List (Option Prep.ProcessedValues)),
    pre.length + samples.length < pp.baseline_samples →
    samples.foldl
        (fun acc q => ((Prep.process_values pp acc.1 q).1,
          acc.2 ++ [(Prep.process_values pp acc.1 q).2]))
        (warmAfter pre, outs) =
      (warmAfter (pre ++ samples),
        outs ++ samples.map (fun _ => (none : Option Prep.ProcessedValues))) := by
  induction samples with
  | nil =>
    intro pre outs h
    simp
  | cons x xs ih =>
    intro pre outs h
    simp only [List.foldl_cons]
    rw [process_values_warm_step pp pre x
      (by simp only [List.length_cons] at h; omega)]
    simp only []
    rw [ih (pre ++ [x]) (outs ++ [none])
      (by simp only [List.length_append, List.length_cons,
        List.length_nil] at h ⊢; omega)]
    simp

theorem runSamples_snoc (pp : Prep.Preprocessor) (st : Prep.OptodeState)
    (l : List Prep.PacketValues) (x : Prep.PacketValues) :
    Prep.runSamples pp st (l ++ [x]) =
      ((Prep.process_values pp (Prep.runSamples pp st l).1 x).1,
        (Prep.runSamples pp st l).2 ++
          [(Prep.process_values pp (Prep.runSamples pp st l).1 x).2]) := by
  unfold Prep.runSamples
  rw [List.foldl_append]
  rfl

theorem process_values_ready_some (pp : Prep.Preprocessor)
    (st : Prep.OptodeState) (pv : Prep.PacketValues)
    (h : st.baseline_ready = true) :
    ((Prep.process_values pp st pv).2).isSome = true := by
  unfold Prep.process_values
  rw [if_neg (by simp [h])]
  rfl

theorem list_sum_ge (c : ℚ) (l : List ℚ) (h : ∀ y ∈ l, c ≤ y) :
    (l.length : ℚ) * c ≤ l.sum := by
  induction l with
  | nil => simp
  | cons y ys ih =>
    have h1 : c ≤ y := h y (List.mem_cons_self _ _)
    have h2 := ih (fun z hz => h z (List.mem_cons_of_mem _ hz))
    simp only [List.length_cons, List.sum_cons]
    push_cast
    nlinarith

end Cerebra

namespace Cerebra

/-- C5: starting from fresh per-optode state, with
`N = baseline_samples = max(1, round(sample_rate_hz × BASELINE_SECONDS))`,
each of the first `N` samples yields no output; reaching sample `N`
flips the optode to READY, fixing each `I0` to the accumulated mean of
the `N` dark-corrected samples, while still producing no output; and
the `(N+1)`-th sample yields a result. -/
theorem warmup_boundary (pp : Prep.Preprocessor)
    (hN : 0 < pp.baseline_samples) (s1 : List Prep.PacketValues)
    (x : Prep.PacketValues) (hlen : s1.length = pp.baseline_samples) :
    (Prep.runSamples pp {} s1).2 =
        s1.map (fun _ => (none : Option Prep.ProcessedValues)) ∧
    (Prep.runSamples pp {} s1).1.baseline_ready = true ∧
    (Prep.runSamples pp {} s1).1.i0_long_740 =
      (s1.map (fun q => Prep.clampf q.long_740 q.dark)).sum /
        (pp.baseline_samples : ℚ) ∧
    (Prep.runSamples pp {} s1).1.i0_long_860 =
      (s1.map (fun q => Prep.clampf q.long_860 q.dark)).sum /
        (pp.baseline_samples : ℚ) ∧
    (Prep.runSamples pp {} s1).1.i0_short_740 =
      (s1.map (fun q => Prep.clampf q.short_740 q.dark)).sum /
        (pp.baseline_samples : ℚ) ∧
    (Prep.runSamples pp {} s1).1.i0_short_860 =
      (s1.map (fun q => Prep.clampf q.short_860 q.dark)).sum /
        (pp.baseline_samples : ℚ) ∧
    (Prep.runSamples pp {} (s1 ++ [x])).2 =
      s1.map (fun _ => (none : Option Prep.ProcessedValues)) ++
        [(Prep.process_values pp (Prep.runSamples pp {} s1).1 x).2] ∧
    ((Prep.process_values pp (Prep.runSamples pp {} s1).1 x).2).isSome =
      true := by
  rcases List.eq_nil_or_concat s1 with rfl | ⟨pre, lastp, rfl⟩
  · exfalso
    simp only [List.length_nil] at hlen
    omega
  simp only [List.concat_eq_append] at hlen ⊢
  have hpre : pre.length + 1 = pp.baseline_samples := by
    simpa using hlen
  have hwarm : Prep.runSamples pp {} pre =
      (warmAfter pre, pre.map (fun _ => (none : Option Prep.ProcessedValues))) :=
    runSamples_warm_aux pp pre [] [] (by simp; omega)
  have hrun : Prep.runSamples pp {} (pre ++ [lastp]) =
      ({ baseline_count := pre.length + 1
         baseline_ready := true
         i0_long_740 := max
           (((pre ++ [lastp]).map (fun q => Prep.clampf q.long_740 q.dark)).sum *
             (1 / ((pre.length : ℚ) + 1))) Prep.EPS
         i0_long_860 := max
           (((pre ++ [lastp]).map (fun q => Prep.clampf q.long_860 q.dark)).sum *
             (1 / ((pre.length : ℚ) + 1))) Prep.EPS
         i0_short_740 := max
           (((pre ++ [lastp]).map (fun q => Prep.clampf q.short_740 q.dark)).sum *
             (1 / ((pre.length : ℚ) + 1))) Prep.EPS
         i0_short_860 := max
           (((pre ++ [lastp]).map (fun q => Prep.clampf q.short_860 q.dark)).sum *
             (1 / ((pre.length : ℚ) + 1))) Prep.EPS },
       pre.map (fun _ => (none : Option Prep.ProcessedValues)) ++ [none]) := by
    rw [runSamples_snoc, hwarm]
    simp only []
    rw [process_values_flip_step pp pre lastp (by omega)]
  have hmean : ∀ l : List ℚ, l.length = pp.baseline_samples →
      (∀ y ∈ l, Prep.EPS ≤ y) →
      max (l.sum * (1 / ((pre.length : ℚ) + 1))) Prep.EPS =
        l.sum / (pp.baseline_samples : ℚ) := by
    intro l hl hy
    have hn : ((pre.length : ℚ) + 1) = (pp.baseline_samples : ℚ) := by
      exact_mod_cast hpre
    have hpos : (0 : ℚ) < (pp.baseline_samples : ℚ) := by
      exact_mod_cast hN
    have hsum := list_sum_ge Prep.EPS l hy
    rw [hl] at hsum
    have hdiv : Prep.EPS ≤ l.sum / (pp.baseline_samples : ℚ) := by
      rw [le_div_iff₀ hpos]
      nlinarith [hsum]
    rw [mul_one_div, hn]
    exact max_eq_left hdiv
  have hlen' : ∀ f : Prep.PacketValues → ℚ,
      ((pre ++ [lastp]).map (fun q => Prep.clampf (f q) q.dark)).length =
        pp.baseline_samples := by
    intro f
    simpa using hpre
  have heps : ∀ (f : Prep.PacketValues → ℚ) y,
      y ∈ (pre ++ [lastp]).map (fun q => Prep.clampf (f q) q.dark) →
      Prep.EPS ≤ y := by
    intro f y hy
    rcases List.mem_map.mp hy with ⟨q, _, rfl⟩
    exact le_max_right _ _
  have hready : (Prep.runSamples pp {} (pre ++ [lastp])).1.baseline_ready =
      true := by
    rw [hrun]
  refine ⟨?_, hready, ?_, ?_, ?_, ?_, ?_, ?_⟩
  · rw [hrun]
    simp
  · rw [hrun]
    exact hmean _ (hlen' (fun q => q.long_740)) (heps (fun q => q.long_740))
  · rw [hrun]
    exact hmean _ (hlen' (fun q => q.long_860)) (heps (fun q => q.long_860))
  · rw [hrun]
    exact hmean _ (hlen' (fun q => q.short_740)) (heps (fun q => q.short_740))
  · rw [hrun]
    exact hmean _ (hlen' (fun q => q.short_860)) (heps (fun q => q.short_860))
  · rw [runSamples_snoc]
    simp only []
    rw [hrun]
    simp
  · exact process_values_ready_some pp _ x hready

end Cerebra

namespace Cerebra

theorem pp5_baseline_samples : pp5.baseline_samples = 15 := by
  norm_num [pp5, Prep.Preprocessor.mk', Prep.BASELINE_SECONDS, round_eq]
  rfl

/-- C5 witness: at 5 Hz (15 baseline samples), feeding 16 constant
samples — the 16th produces a result. -/
theorem warmup_boundary_witness :
    ((Prep.process_values pp5
        (Prep.runSamples pp5 {} (List.replicate 15 onePacketValues)).1
        onePacketValues).2).isSome = true :=
  (warmup_boundary pp5 (by rw [pp5_baseline_samples]; norm_num)
      (List.replicate 15 onePacketValues) onePacketValues
      (by rw [pp5_baseline_samples]; simp)).2.2.2.2.2.2.2

end Cerebra

namespace Cerebra

/-! ## Claim C8: strict-drain shutdown of the frame worker

`FrameWorker.run` consumes the raw-packet queue in FIFO order (single
consumer), so the loop is modelled sequentially over the queue contents;
the `None` sentinel enqueued by `PipelineRuntime._stop_workers` via the
blocking `_put_control` sits after every previously queued packet. The
worker's final acts, in order: report the dropped count, then put the
sentinel on the matched-frame queue — hence the runtime's join returns
only after both, and `_stop_workers` itself forwards a matched-queue
sentinel only when the worker was already down (`not frame_was_alive`). -/

/-- `pipeline.types.MatchedFrame`. -/
structure MatchedFrame where
  frame : CompleteFrame
  sample_ids : List (Nat × Nat)
  deriving Repr, DecidableEq

/-- `pipeline.persistence.store_raw_frame`, with the database modelled
as a sequential row-id allocator: one raw row per packet of the frame,
returning the `{optode_id: sample_id}` map and the next free row id
(an empty frame inserts nothing and returns an empty map). -/
def store_raw_frame (nextId : Nat) (frame : CompleteFrame) :
    List (Nat × Nat) × Nat :=
  (frame.packets.enum.map (fun q => (q.2.1, nextId + q.1)),
    nextId + frame.packets.length)

/-- Outcome of one `FrameWorker.run` (sequential model): final buffer,
`on_captured_frame` count, frame numbers persisted as raw rows, the
ordered matched-queue puts (sentinel included), and the dropped count
reported on exit (`none` when the inputs ran out without a sentinel —
the worker would still be blocked on `get`). -/
structure FrameWorkerRun where
  buffer : Buffer
  captured : Nat
  rawPersisted : List Nat
  matchedPuts : List (Option MatchedFrame)
  droppedReport : Option Nat
  nextId : Nat
  deriving Repr, DecidableEq

/-- The `while True` loop of `FrameWorker.run`. -/
def frameWorkerLoop (b : Buffer) (nextId captured : Nat)
    (persisted : List Nat) (puts : List (Option MatchedFrame)) :
    List (Option (List Nat × Int)) → FrameWorkerRun
  | [] => ⟨b, captured, persisted, puts, none, nextId⟩
  | none :: _ =>
    ⟨b, captured, persisted, puts ++ [none], some b.dropped, nextId⟩
  | some pt :: rest =>
    let r := Buffer.add_packet b pt.1 pt.2
    match r.2 with
    | none => frameWorkerLoop r.1 nextId captured persisted puts rest
    | some cf =>
      let s := store_raw_frame nextId cf
      if s.1.isEmpty then
        frameWorkerLoop r.1 s.2 (captured + 1) persisted puts rest
      else
        frameWorkerLoop r.1 s.2 (captured + 1)
          (persisted ++ [cf.frame_number]) (puts ++ [some ⟨cf, s.1⟩]) rest

/-- `FrameWorker.run` on the queue contents, from a fresh session. -/
def frameWorkerRun (b : Buffer) (inputs : List (Option (List Nat × Int))) :
    FrameWorkerRun :=
  frameWorkerLoop b 0 0 [] [] inputs

theorem add_packet_num_optodes (b : Buffer) (p : List Nat) (t : Int) :
    (b.add_packet p t).1.num_optodes = b.num_optodes := by
  rw [add_packet_eq]
  simp only []
  split <;> simp [evict_num_optodes, with_start_num_optodes]

theorem add_packet_some_packets_length (b : Buffer) (p : List Nat) (t : Int)
    (cf : CompleteFrame) (h : (b.add_packet p t).2 = some cf) :
    cf.packets.length = b.num_optodes := by
  rw [add_packet_eq] at h
  simp only [evict_num_optodes, with_start_num_optodes] at h
  revert h
  split
  · rename_i hlen
    intro h
    simp only [] at h
    obtain rfl := (Option.some.inj h).symm
    simpa using hlen
  · intro h
    simp only [] at h
    cases h

theorem run_acc (xs : List (List Nat × Int)) :
    ∀ (b : Buffer) (cs : List CompleteFrame),
    xs.foldl
        (fun acc inp =>
          let r := Buffer.add_packet acc.1 inp.1 inp.2
          (r.1, match r.2 with
                | some cf => acc.2 ++ [cf]
                | none => acc.2))
        (b, cs) =
      ((Buffer.run b xs).1, cs ++ (Buffer.run b xs).2) := by
  induction xs with
  | nil =>
    intro b cs
    simp [Buffer.run]
  | cons x xs ih =>
    intro b cs
    simp only [Buffer.run, List.foldl_cons]
    rcases hr : (Buffer.add_packet b x.1 x.2).2 with _ | cf
    · simp only [hr]
      rw [ih, ih]
      simp
    · simp only [hr]
      rw [ih, ih]
      simp

theorem run_cons (b : Buffer) (x : List Nat × Int)
    (xs : List (List Nat × Int)) :
    Buffer.run b (x :: xs) =
      ((Buffer.run (Buffer.add_packet b x.1 x.2).1 xs).1,
        (match (Buffer.add_packet b x.1 x.2).2 with
         | some cf => [cf]
         | none => []) ++
          (Buffer.run (Buffer.add_packet b x.1 x.2).1 xs).2) := by
  show (x :: xs).foldl _ (b, []) = _
  simp only [List.foldl_cons]
  rcases hr : (Buffer.add_packet b x.1 x.2).2 with _ | cf
  · simp only [hr]
    rw [run_acc]
  · simp only [hr]
    rw [run_acc]
    simp

end Cerebra

namespace Cerebra

theorem store_raw_frame_not_empty (nextId : Nat) (cf : CompleteFrame)
    (h : cf.packets ≠ []) :
    (store_raw_frame nextId cf).1.isEmpty = false := by
  unfold store_raw_frame
  simp only []
  rw [List.isEmpty_eq_false]
  simp [h]

theorem frameWorkerLoop_spec (packets : List (List Nat × Int))
    (rest : List (Option (List Nat × Int))) :
    ∀ (b : Buffer) (nextId captured : Nat) (persisted : List Nat)
      (puts : List (Option MatchedFrame)),
    0 < b.num_optodes →
    (frameWorkerLoop b nextId captured persisted puts
        (packets.map some ++ none :: rest)).buffer =
      (Buffer.run b packets).1 ∧
    (frameWorkerLoop b nextId captured persisted puts
        (packets.map some ++ none :: rest)).captured =
      captured + (Buffer.run b packets).2.length ∧
    (frameWorkerLoop b nextId captured persisted puts
        (packets.map some ++ none :: rest)).rawPersisted =
      persisted ++ (Buffer.run b packets).2.map (fun cf => cf.frame_number) ∧
    (frameWorkerLoop b nextId captured persisted puts
        (packets.map some ++ none :: rest)).droppedReport =
      some (Buffer.run b packets).1.dropped_frames ∧
    (frameWorkerLoop b nextId captured persisted puts
        (packets.map some ++ none :: rest)).matchedPuts.map
          (Option.map (fun m => m.frame)) =
      puts.map (Option.map (fun m => m.frame)) ++
        (Buffer.run b packets).2.map some ++ [none] := by
  induction packets with
  | nil =>
    intro b nextId captured persisted puts hn
    simp [frameWorkerLoop, Buffer.run, Buffer.dropped_frames]
  | cons x ps ih =>
    intro b nextId captured persisted puts hn
    simp only [List.map_cons, List.cons_append]
    rw [run_cons]
    have hn' : 0 < (Buffer.add_packet b x.1 x.2).1.num_optodes := by
      rw [add_packet_num_optodes]
      exact hn
    rcases hr : (Buffer.add_packet b x.1 x.2).2 with _ | cf
    · have hloop : frameWorkerLoop b nextId captured persisted puts
          (some x :: (ps.map some ++ none :: rest)) =
          frameWorkerLoop (Buffer.add_packet b x.1 x.2).1 nextId captured
            persisted puts (ps.map some ++ none :: rest) := by
        simp [frameWorkerLoop, hr]
      rw [hloop]
      obtain ⟨h1, h2, h3, h4, h5⟩ :=
        ih (Buffer.add_packet b x.1 x.2).1 nextId captured persisted puts hn'
      refine ⟨h1, by simpa using h2, by simpa using h3, by simpa using h4,
        by simpa using h5⟩
    · have hne : cf.packets ≠ [] := by
        have := add_packet_some_packets_length b x.1 x.2 cf hr
        intro hemp
        rw [hemp] at this
        simp at this
        omega
      have hloop : frameWorkerLoop b nextId captured persisted puts
          (some x :: (ps.map some ++ none :: rest)) =
          frameWorkerLoop (Buffer.add_packet b x.1 x.2).1
            (store_raw_frame nextId cf).2 (captured + 1)
            (persisted ++ [cf.frame_number])
            (puts ++ [some ⟨cf, (store_raw_frame nextId cf).1⟩])
            (ps.map some ++ none :: rest) := by
        simp [frameWorkerLoop, hr, store_raw_frame_not_empty nextId cf hne]
      rw [hloop]
      obtain ⟨h1, h2, h3, h4, h5⟩ :=
        ih (Buffer.add_packet b x.1 x.2).1 (store_raw_frame nextId cf).2
          (captured + 1) (persisted ++ [cf.frame_number])
          (puts ++ [some ⟨cf, (store_raw_frame nextId cf).1⟩]) hn'
      refine ⟨h1, ?_, ?_, by simpa using h4, ?_⟩
      · rw [h2]
        simp
        omega
      · rw [h3]
        simp
      · rw [h5]
        simp

end Cerebra

namespace Cerebra

/-- C8: enqueue raw packets and then the shutdown sentinel — FrameWorker
processes every packet queued before the sentinel (its final buffer is
the full fold of `add_packet` over all of them, in order), counts and
persists exactly the K completed frames as raw rows, reports the final
dropped count, and its matched-queue puts are exactly the K matched
frames in completion order followed by one trailing sentinel — the
sentinel reaches the matched queue only after every matched frame, as
the worker's last act before exiting (and being joined). -/
theorem strict_drain_shutdown (n : Nat) (hn : 0 < n) (stale : Int)
    (maxp : Nat) (packets : List (List Nat × Int))
    (rest : List (Option (List Nat × Int))) :
    (frameWorkerRun (Buffer.mk' n stale maxp)
        (packets.map some ++ none :: rest)).buffer =
      (Buffer.run (Buffer.mk' n stale maxp) packets).1 ∧
    (frameWorkerRun (Buffer.mk' n stale maxp)
        (packets.map some ++ none :: rest)).captured =
      (Buffer.run (Buffer.mk' n stale maxp) packets).2.length ∧
    (frameWorkerRun (Buffer.mk' n stale maxp)
        (packets.map some ++ none :: rest)).rawPersisted =
      (Buffer.run (Buffer.mk' n stale maxp) packets).2.map
        (fun cf => cf.frame_number) ∧
    (frameWorkerRun (Buffer.mk' n stale maxp)
        (packets.map some ++ none :: rest)).droppedReport =
      some (Buffer.run (Buffer.mk' n stale maxp) packets).1.dropped_frames ∧
    (frameWorkerRun (Buffer.mk' n stale maxp)
        (packets.map some ++ none :: rest)).matchedPuts.map
          (Option.map (fun m => m.frame)) =
      (Buffer.run (Buffer.mk' n stale maxp) packets).2.map some ++ [none] := by
  obtain ⟨h1, h2, h3, h4, h5⟩ :=
    frameWorkerLoop_spec packets rest (Buffer.mk' n stale maxp) 0 0 [] [] hn
  exact ⟨h1, by simpa using h2, by simpa using h3, h4, by simpa using h5⟩

/-- C8 witness: two packets completing frame 9, then the sentinel — the
matched-queue puts are that one frame followed by the sentinel. -/
theorem strict_drain_shutdown_witness :
    (frameWorkerRun (Buffer.mk' 2 2000 256)
        ([(examplePacket 9 0, 500), (examplePacket 9 1, 530)].map some ++
          none :: [])).matchedPuts.map (Option.map (fun m => m.frame)) =
      (Buffer.run (Buffer.mk' 2 2000 256)
          [(examplePacket 9 0, 500), (examplePacket 9 1, 530)]).2.map some ++
        [none] :=
  (strict_drain_shutdown 2 (by decide) 2000 256
      [(examplePacket 9 0, 500), (examplePacket 9 1, 530)] []).2.2.2.2

end Cerebra
